import Mathlib

/-!
Verification of the acquisition-and-normalization pipeline of `src/main.py`
(a Telegram bot that downloads media with yt-dlp and conditionally
re-encodes it with ffmpeg before delivery).

The Python code is shallowly embedded: pure helper functions become Lean
functions on `String` / `List Char`; the filesystem, the external
downloader, the probe subprocess and the transcoder are abstracted as
explicit oracle parameters (a path-existence predicate, per-attempt
outcome functions, a process-result value).  Python string and integer
semantics (`str.split`, `str.strip`, `int(...)` parsing, truthiness of
strings and of `os.getenv` results) are modelled by the `py*` helpers
below.
-/

namespace TgTw

/-- Characters Python's `str.strip()` removes (ASCII whitespace). -/
def isPySpace (c : Char) : Bool :=
  c = ' ' || c = '\t' || c = '\n' || c = '\x0d' || c = '\x0b' || c = '\x0c'

/-- Model of Python `str.strip()` on a character list. -/
def pyStrip (cs : List Char) : List Char :=
  ((cs.dropWhile isPySpace).reverse.dropWhile isPySpace).reverse

/-- Model of Python `str.split(sep)` for a one-character separator:
`"".split(":") = [""]`, `"a::b".split(":") = ["a","","b"]`. -/
def splitOnChar (c : Char) : List Char → List (List Char)
  | [] => [[]]
  | x :: xs =>
    if x = c then [] :: splitOnChar c xs
    else
      match splitOnChar c xs with
      | r :: rs => (x :: r) :: rs
      | [] => [[x]]

/-- Digit run of Python's `int(...)` grammar: after the first digit,
single underscores are allowed between digits (`int("1_0") = 10`),
but not leading, trailing or doubled. -/
def pyDigitsAux : List Char → Nat → Option Nat
  | [], acc => some acc
  | '_' :: d :: cs, acc =>
    if d.isDigit then pyDigitsAux cs (acc * 10 + (d.toNat - 48)) else none
  | ['_'], _ => none
  | c :: cs, acc =>
    if c.isDigit then pyDigitsAux cs (acc * 10 + (c.toNat - 48)) else none

/-- Sign and first digit of Python's `int(...)` grammar (whitespace
already stripped). -/
def pyIntCore : List Char → Option Int
  | '+' :: d :: cs =>
    if d.isDigit then (pyDigitsAux cs (d.toNat - 48)).map Int.ofNat else none
  | '-' :: d :: cs =>
    if d.isDigit then (pyDigitsAux cs (d.toNat - 48)).map (fun n => -(Int.ofNat n : Int))
    else none
  | d :: cs =>
    if d.isDigit then (pyDigitsAux cs (d.toNat - 48)).map Int.ofNat else none
  | [] => none

/-- Model of Python `int(s)` on a character list: `none` models a
raised `ValueError`.  `int` itself strips surrounding whitespace. -/
def pyIntL (cs : List Char) : Option Int := pyIntCore (pyStrip cs)

/-- Model of Python `int(s)` on a `String`. -/
def pyInt (s : String) : Option Int := pyIntL s.toList

/-- ASCII lowercasing of one character (Python `str.lower()` on the
ASCII range relevant to hosts and file extensions). -/
def lowerChar (c : Char) : Char :=
  if 'A' ≤ c ∧ c ≤ 'Z' then Char.ofNat (c.toNat + 32) else c

/-- Model of Python `str.lower()` on a character list. -/
def lowerL (cs : List Char) : List Char := cs.map lowerChar

/-- Truthiness of an `os.getenv` result: `None` and `""` are falsy. -/
def pyTruthyEnv : Option String → Bool
  | none => false
  | some s => s ≠ ""

/-- Model of `a or b` where `a` is an `os.getenv` result and `b` a
fallback string: the value if set and non-empty, else the fallback. -/
def pyOrStr (x : Option String) (rest : String) : String :=
  match x with
  | some s => if s = "" then rest else s
  | none => rest

/-! ## Transcode decision engine (`transcode_to_hevc`, src/main.py lines 172–215)

`transcode_to_hevc` probes the video, reads
`sar = video_info.get("sample_aspect_ratio", "1:1")`, computes
`needs_sar_fix`, and builds one of two ffmpeg command lines: a re-encode
with a scale-and-square-SAR filter when a fix is needed, otherwise a
stream-copy remux. -/

/-- The two plans the Auto-mode engine can choose. -/
inductive PlanKind
  | passThroughRemux
  | geometryFix
deriving DecidableEq, Repr

/-- The SAR strings the code excludes up front:
`sar not in ("1:1", "N/A", "0:1", "")`. -/
def sarExcluded : List String := ["1:1", "N/A", "0:1", ""]

/-- Inner part of the `needs_sar_fix` computation: given
`sar_parts = sar.split(":")`, the fix fires iff there are exactly two
parts, both parse as Python ints, and `sar_den > 0 and sar_num != sar_den`.
A failed `int(...)` raises `ValueError`, caught by the surrounding
`except`, leaving `needs_sar_fix = False`. -/
def sarPairFix (parts : List (List Char)) : Bool :=
  match parts with
  | [a, b] =>
    match pyIntL a, pyIntL b with
    | some n, some d => decide (0 < d ∧ n ≠ d)
    | _, _ => false
  | _ => false

/-- `needs_sar_fix` from `transcode_to_hevc`:
`if sar and sar not in ("1:1", "N/A", "0:1", "")` then parse `N:D` and
require `D > 0` and `N ≠ D`. -/
def needs_sar_fix (sar : String) : Bool :=
  if sar ≠ "" ∧ sar ∉ sarExcluded then sarPairFix (splitOnChar ':' sar.toList)
  else false

/-- The Auto-mode decision on the probed SAR value:
`video_info.get("sample_aspect_ratio", "1:1")` defaults an absent SAR to
`"1:1"`; a needed fix selects the re-encode branch, else the remux
branch. -/
def autoDecision (sarOpt : Option String) : PlanKind :=
  if needs_sar_fix (sarOpt.getD "1:1") then .geometryFix else .passThroughRemux

/-- The ffmpeg argument list built by `transcode_to_hevc` (lines
199–215): re-encode with the scale-and-square-SAR filter chain, fast
preset, audio copied, when `fix` holds; plain stream copy otherwise.
`\x27` is the single-quote character inside the filter expression. -/
def ffmpegCmd (ffmpeg inp out : String) (fix : Bool) : List String :=
  if fix then
    [ffmpeg, "-y", "-i", inp,
     "-vf", "scale=\x27trunc(iw*sar/2)*2:trunc(ih/2)*2\x27,setsar=1",
     "-c:v", "libx264", "-preset", "ultrafast", "-crf", "18",
     "-c:a", "copy",
     "-movflags", "+faststart",
     out]
  else
    [ffmpeg, "-y", "-i", inp,
     "-c", "copy",
     "-movflags", "+faststart",
     out]

/-- The command `transcode_to_hevc` runs for a given probed SAR. -/
def transcodeCmd (ffmpeg inp out : String) (sarOpt : Option String) : List String :=
  ffmpegCmd ffmpeg inp out (needs_sar_fix (sarOpt.getD "1:1"))

/-! ## Delivery-size gate (`handle_message`, src/main.py lines 330–339)

`max_size = 2000 * 1024 * 1024 if local_api_url else 50 * 1024 * 1024`;
the video is rejected when `file_size > max_size`. -/

/-- `max_size` as computed in `handle_message`; the transport mode is the
truthiness of `TELEGRAM_LOCAL_API_URL` (`Local` = set and non-empty,
`Hosted` = unset or empty). -/
def max_size (localApiUrl : Option String) : Nat :=
  if pyTruthyEnv localApiUrl then 2000 * 1024 * 1024 else 50 * 1024 * 1024

/-- The delivery gate: the artifact is forwarded iff
`not (file_size > max_size)`. -/
def fitsGate (fileSize : Nat) (localApiUrl : Option String) : Bool :=
  !(decide (fileSize > max_size localApiUrl))

/-! ## Allow-list (`parse_allowlist` lines 44–57, access check lines 293–299) -/

/-- `parse_allowlist`: read `ALLOWLIST_USER_IDS`, strip; empty → empty
set; else split on commas, strip each part, skip empties, parse ints,
silently skipping parts that raise `ValueError`.  (The Python `set` is
modelled as the list of successfully parsed entries; only emptiness and
membership are consumed.) -/
def parse_allowlist (env : Option String) : List Int :=
  let raw := pyStrip (env.getD "").toList
  if raw = [] then []
  else (splitOnChar ',' raw).filterMap (fun part => pyIntL (pyStrip part))

/-- The access check in `handle_message`:
`if allowlist and (user_id is None or user_id not in allowlist)` denies;
access is granted otherwise. -/
def accessGranted (allowlist : List Int) (uid : Option Int) : Bool :=
  !(!allowlist.isEmpty &&
    (match uid with
     | none => true
     | some u => !allowlist.contains u))

/-! ## URL classifier (`is_twitter_url`, src/main.py lines 60–67)

`urlparse(url).netloc` is abstracted as an `Except Unit String`: a raised
parse exception (the `except Exception: return False` branch) or the
netloc string. -/

/-- The host names matched after lowercasing and dropping `www.`. -/
def twitterHosts : List (List Char) :=
  ["twitter.com".toList, "x.com".toList,
   "mobile.twitter.com".toList, "mobile.x.com".toList]

/-- Model of `str.removeprefix("www.")`. -/
def dropWWW (host : List Char) : List Char :=
  if "www.".toList.isPrefixOf host then host.drop 4 else host

/-- `is_twitter_url`: lowercase the parsed netloc, drop a leading
`www.`, and match against the fixed host set; a parse exception yields
`False`. -/
def is_twitter_url (parsed : Except Unit String) : Bool :=
  match parsed with
  | .error _ => false
  | .ok netloc => twitterHosts.contains (dropWWW (lowerL netloc.toList))

/-! ## Strategy candidates (`download_with_yt_dlp`, lines 236–246)

`YTDLP_TWITTER_API_ORDER` (default `"graphql,legacy,syndication"`) is
split on commas, each part stripped, empties dropped; if nothing
remains, the single fallback `YTDLP_TWITTER_API or TWITTER_API or
"syndication"` is used. -/

/-- The ordered API candidate list, as a function of the three
environment variables it reads. -/
def apiCandidates (orderEnv apiEnv apiEnv2 : Option String) : List (List Char) :=
  let order := orderEnv.getD "graphql,legacy,syndication"
  let cands := (splitOnChar ',' order.toList).map pyStrip |>.filter (· ≠ [])
  if cands = [] then [(pyOrStr apiEnv (pyOrStr apiEnv2 "syndication")).toList]
  else cands

/-! ## Attempt loop (`download_with_yt_dlp`, lines 248–273)

The loop body (`build_ydl_opts`, `ydl.extract_info`,
`normalize_download_path`, `transcode_to_hevc`) is abstracted as an
oracle `body : Option α → Except ε μ` giving each attempt's outcome;
any exception raised anywhere in the body is caught by the
`except Exception` handler.  The function returns both the result
(`Except (Option ε) μ`, where `.error none` models the final
`raise RuntimeError("Download failed")` with no recorded error) and the
trace of attempted strategy labels. -/

/-- One pass of the `for api in attempts` loop, carrying `last_error`:
on success return; on failure record the error, and `break` (then
re-raise) when the URL is not a Twitter URL. -/
def attemptLoop {ε μ α : Type} (isTw : Bool) (body : Option α → Except ε μ) :
    List (Option α) → Option ε → Except (Option ε) μ × List (Option α)
  | [], lastE => (.error lastE, [])
  | api :: rest, _lastE =>
    match body api with
    | .ok v => (.ok v, [api])
    | .error e =>
      if isTw then
        let r := attemptLoop isTw body rest (some e)
        (r.1, api :: r.2)
      else (.error (some e), [api])

/-- `attempts = api_candidates if is_twitter_url(url) else [None]`. -/
def attemptsFor {α : Type} (isTw : Bool) (cands : List α) : List (Option α) :=
  if isTw then cands.map some else [none]

/-- `download_with_yt_dlp`, abstracted over the per-attempt body:
runs the attempt loop over the strategy plan with `last_error = None`
initially. -/
def download_with_yt_dlp {ε μ α : Type} (isTw : Bool) (cands : List α)
    (body : Option α → Except ε μ) : Except (Option ε) μ × List (Option α) :=
  attemptLoop isTw body (attemptsFor isTw cands) none

/-! ## Path normalizer (`normalize_download_path`, lines 114–120)

`pathlib` semantics: `suffix` is the final component's extension
(`name[i:]` for the last dot at `0 < i < len(name) - 1`, else `""`);
`with_suffix(".mp4")` replaces it on the final component.  The
filesystem is an explicit existence predicate on paths. -/

/-- Final path component (text after the last `/`). -/
def nameOf (p : List Char) : List Char :=
  (p.reverse.takeWhile (· ≠ '/')).reverse

/-- Leading directory part (everything up to and including the last
`/`). -/
def dirOf (p : List Char) : List Char :=
  p.take (p.length - (nameOf p).length)

/-- Split a path's final component into stem and suffix by pathlib's
rule: the suffix starts at the last dot when that dot is neither the
first nor the last character of the name; otherwise the suffix is
empty. -/
def sufSplit (p : List Char) : List Char × List Char :=
  let name := nameOf p
  let rev := name.reverse
  let revSuf := rev.takeWhile (· ≠ '.')
  if revSuf.length = rev.length then (p, [])         -- no dot in the name
  else
    let stemName := (rev.drop (revSuf.length + 1)).reverse
    if stemName = [] ∨ revSuf = [] then (p, [])       -- leading or trailing dot
    else (dirOf p ++ stemName, '.' :: revSuf.reverse)

/-- `path.with_suffix(".mp4")`: replace (or append, when the suffix is
empty) the final component's suffix with `.mp4`. -/
def withSuffixMp4 (p : List Char) : List Char :=
  (sufSplit p).1 ++ ".mp4".toList

/-- `normalize_download_path`: return the sibling `.mp4` path when the
declared path's lowercased suffix is not `.mp4`, the declared path
exists, and the sibling exists; otherwise the declared path. -/
def normalize_download_path (fsExists : List Char → Bool) (filename : List Char) :
    List Char :=
  if lowerL (sufSplit filename).2 ≠ ".mp4".toList ∧ fsExists filename then
    let mp4 := withSuffixMp4 filename
    if fsExists mp4 then mp4 else filename
  else filename

/-! ## Media probe (`get_video_info`, lines 123–152)

The ffprobe invocation is abstracted: whether the binary exists, and the
process outcome (a `TimeoutExpired` raise, or completion with a return
code and the `json.loads` result of stdout, itself abstracted as an
`Except` of a small Python-value model). -/

/-- Minimal model of the Python values `json.loads` can return. -/
inductive PyObj
  | dict (kvs : List (String × PyObj))
  | list (xs : List PyObj)
  | str (s : String)
  | int (n : Int)
  | noneV

/-- Exceptions `get_video_info` can raise (uncaught by its own
handlers). -/
inductive PyErr
  | runtimeNotFound   -- raise RuntimeError("ffprobe not found")
  | timeoutExpired    -- subprocess.TimeoutExpired from subprocess.run
  | attributeError    -- data.get(...) on a non-dict json.loads result
  | keyError          -- streams_dict[0] on a dict value
  | typeError         -- v[0] on a non-subscriptable value
deriving DecidableEq, Repr

/-- Outcome of `subprocess.run(cmd, capture_output=True, timeout=30)`:
a timeout raise, or completion with return code and parsed stdout
(`Except Unit PyObj` models `json.loads`: decode error or value). -/
inductive ProcResult
  | timeout
  | done (returncode : Int) (stdout : Except Unit PyObj)

/-- `dict.get(k)` on the association-list model. -/
def dictGet (kvs : List (String × PyObj)) (k : String) : Option PyObj :=
  (kvs.find? (fun kv => kv.1 = k)).map (·.2)

/-- `get_video_info`: raise when ffprobe is absent; let a probe timeout
propagate; return `{}` on nonzero exit; then
`data.get("streams", [{}])[0]` with `json.JSONDecodeError` and
`IndexError` caught (returning `{}`) and other exceptions propagating. -/
def get_video_info (ffprobeFound : Bool) (res : ProcResult) : Except PyErr PyObj :=
  if !ffprobeFound then .error .runtimeNotFound
  else
    match res with
    | .timeout => .error .timeoutExpired
    | .done rc out =>
      if rc ≠ 0 then .ok (.dict [])
      else
        match out with
        | .error _ => .ok (.dict [])                  -- json.JSONDecodeError caught
        | .ok (.dict kvs) =>
          match dictGet kvs "streams" with
          | none => .ok (.dict [])                    -- default [{}] then [0] → {}
          | some (.list []) => .ok (.dict [])         -- IndexError caught
          | some (.list (x :: _)) => .ok x
          | some (.str s) =>                           -- "…"[0]: first char, or IndexError
            match s.toList with
            | [] => .ok (.dict [])
            | c :: _ => .ok (.str (String.mk [c]))
          | some (.dict _) => .error .keyError
          | some _ => .error .typeError
        | .ok _ => .error .attributeError             -- .get on a non-dict

/-- Shapes of the parsed stdout under which `get_video_info`'s own
handlers absorb every failure (the shapes real `ffprobe -of json`
output can take, plus decode failure). -/
def stdoutShapeOk : Except Unit PyObj → Bool
  | .error _ => true
  | .ok (.dict kvs) =>
    match dictGet kvs "streams" with
    | none => true
    | some (.list _) => true
    | some (.str _) => true
    | some _ => false
  | .ok _ => false

example : pyInt "42" = some 42 := by decide
example : pyInt " -7 " = some (-7) := by decide
example : pyInt "1_0" = some 10 := by decide
example : pyInt "1__0" = none := by decide
example : pyInt "" = none := by decide
example : pyInt "4.5" = none := by decide
example : pyInt "+3" = some 3 := by decide
example : splitOnChar ':' "4:3".toList = ["4".toList, "3".toList] := by decide
example : splitOnChar ':' [] = [[]] := by decide
example : lowerL "WWW.X.Com".toList = "www.x.com".toList := by decide
example : pyStrip "  ab ".toList = "ab".toList := by decide

example : autoDecision (some "1:1") = .passThroughRemux := by decide
example : autoDecision (some "4:3") = .geometryFix := by decide
example : autoDecision (some "0:5") = .geometryFix := by decide
example : autoDecision (some "5:0") = .passThroughRemux := by decide
example : autoDecision none = .passThroughRemux := by decide
example : autoDecision (some "abc") = .passThroughRemux := by decide
example : fitsGate (60 * 1024 * 1024) none = false := by decide
example : fitsGate (60 * 1024 * 1024) (some "http://tg:8081") = true := by decide
example : parse_allowlist (some "abc, xyz,") = [] := by decide
example : parse_allowlist (some "12, x, 34") = [12, 34] := by decide
example : accessGranted [] none = true := by decide
example : accessGranted [5] (some 4) = false := by decide

/-! ## Helper lemmas -/

theorem sarPairFix_pair (a b : List Char) :
    sarPairFix [a, b] = true ↔
      ∃ n d, pyIntL a = some n ∧ pyIntL b = some d ∧ 0 < d ∧ n ≠ d := by
  unfold sarPairFix
  cases hx : pyIntL a with
  | none => simp [hx]
  | some n =>
    cases hy : pyIntL b with
    | none => simp [hx, hy]
    | some d => simp [hx, hy]

theorem sarPairFix_iff (parts : List (List Char)) :
    sarPairFix parts = true ↔
      ∃ a b n d, parts = [a, b] ∧ pyIntL a = some n ∧ pyIntL b = some d ∧
        0 < d ∧ n ≠ d := by
  match parts with
  | [] => simp [sarPairFix]
  | [a] => simp [sarPairFix]
  | [a, b] =>
    rw [sarPairFix_pair]
    constructor
    · rintro ⟨n, d, hx, hy, hd, hne⟩
      exact ⟨a, b, n, d, rfl, hx, hy, hd, hne⟩
    · rintro ⟨a', b', n, d, heq, hx, hy, hd, hne⟩
      injection heq with h1 hrest
      injection hrest with h2 _
      subst h1; subst h2
      exact ⟨n, d, hx, hy, hd, hne⟩
  | a :: b :: c :: rest => simp [sarPairFix]

theorem needs_sar_fix_iff (s : String) :
    needs_sar_fix s = true ↔
      s ∉ sarExcluded ∧ sarPairFix (splitOnChar ':' s.toList) = true := by
  unfold needs_sar_fix
  by_cases hmem : s ∈ sarExcluded
  · have hcond : ¬(s ≠ "" ∧ s ∉ sarExcluded) := fun h => h.2 hmem
    simp [hcond, hmem]
  · have hne : s ≠ "" := fun h => hmem (h ▸ (by decide : "" ∈ sarExcluded))
    rw [if_pos ⟨hne, hmem⟩]
    simp [hmem]

theorem autoDecision_geometryFix_iff (s : String) :
    autoDecision (some s) = .geometryFix ↔
      s ∉ sarExcluded ∧ ∃ a b n d, splitOnChar ':' s.toList = [a, b] ∧
        pyIntL a = some n ∧ pyIntL b = some d ∧ 0 < d ∧ n ≠ d := by
  have h1 : autoDecision (some s) = .geometryFix ↔ needs_sar_fix s = true := by
    by_cases h : needs_sar_fix s <;> simp [autoDecision, h]
  rw [h1, needs_sar_fix_iff]
  exact and_congr_right fun _ => sarPairFix_iff _

theorem attemptLoop_allFail {E A B : Type} (body : Option B → Except E A)
    (g : B → E) (lastC : B) :
    ∀ (pre : List B) (lastE : Option E),
      (∀ c ∈ pre ++ [lastC], body (some c) = .error (g c)) →
      (attemptLoop true body ((pre ++ [lastC]).map some) lastE).1
        = .error (some (g lastC)) := by
  intro pre
  induction pre with
  | nil =>
    intro lastE hf
    have h := hf lastC (by simp)
    simp [attemptLoop, h]
  | cons c rest ih =>
    intro lastE hf
    have hc := hf c (by simp)
    have hrec := ih (some (g c)) (fun x hx => hf x (by simp at hx ⊢; tauto))
    have hrec' : (attemptLoop true body (List.map some rest ++ [some lastC])
        (some (g c))).1 = Except.error (some (g lastC)) := by simpa using hrec
    simp [attemptLoop, hc, hrec']

theorem attemptLoop_firstSuccess {E A B : Type} (body : Option B → Except E A) :
    ∀ (pre : List B) (a : B) (post : List B) (v : A) (lastE : Option E),
      (∀ x ∈ pre, ∃ e, body (some x) = .error e) → body (some a) = .ok v →
      attemptLoop true body ((pre ++ a :: post).map some) lastE
        = (.ok v, pre.map some ++ [some a]) := by
  intro pre
  induction pre with
  | nil =>
    intro a post v lastE _ ha
    simp [attemptLoop, ha]
  | cons c rest ih =>
    intro a post v lastE hpre ha
    obtain ⟨e, he⟩ := hpre c (by simp)
    have hrec := ih a post v (some e) (fun x hx => hpre x (by simp [hx])) ha
    have hrec' : attemptLoop true body
        (List.map some rest ++ some a :: List.map some post) (some e)
        = (Except.ok v, List.map some rest ++ [some a]) := by simpa using hrec
    simp [attemptLoop, he, hrec']

theorem attemptLoop_trace_take {E A B : Type} (isTw : Bool)
    (body : Option B → Except E A) :
    ∀ (atts : List (Option B)) (lastE : Option E),
      ∃ k, (attemptLoop isTw body atts lastE).2 = atts.take k := by
  intro atts
  induction atts with
  | nil => intro _; exact ⟨0, rfl⟩
  | cons a rest ih =>
    intro lastE
    cases hb : body a with
    | ok v => exact ⟨1, by simp [attemptLoop, hb]⟩
    | error e =>
      cases ht : isTw with
      | true =>
        obtain ⟨k, hk⟩ := ih (some e)
        rw [ht] at hk
        exact ⟨k + 1, by simp [attemptLoop, hb, ht, hk, List.take_succ_cons]⟩
      | false => exact ⟨1, by simp [attemptLoop, hb, ht]⟩

example : is_twitter_url (.ok "WWW.X.com") = true := by decide
example : is_twitter_url (.ok "youtube.com") = false := by decide
example : is_twitter_url (.error ()) = false := by decide
example : apiCandidates none none none
    = ["graphql".toList, "legacy".toList, "syndication".toList] := by decide
example : apiCandidates (some "") none none = ["syndication".toList] := by decide
example : apiCandidates (some " , ,") (some "legacy") none = ["legacy".toList] := by decide
example :
    normalize_download_path (fun p => p = "clip.mp4".toList) "clip.webm".toList
      = "clip.webm".toList := by decide
example :
    normalize_download_path (fun p => p = "clip.webm".toList || p = "clip.mp4".toList)
      "clip.webm".toList = "clip.mp4".toList := by decide
example : sufSplit "a/clip.webm".toList = ("a/clip".toList, ".webm".toList) := by decide
example : sufSplit "a/.bashrc".toList = ("a/.bashrc".toList, []) := by decide
example : withSuffixMp4 "a/clip.webm".toList = "a/clip.mp4".toList := by decide
example : withSuffixMp4 "clip".toList = "clip.mp4".toList := by decide
example : get_video_info false .timeout = .error .runtimeNotFound := rfl
example : get_video_info true .timeout = .error .timeoutExpired := rfl
example : get_video_info true (.done 1 (.error ())) = .ok (.dict []) := rfl
example :
    get_video_info true (.done 0 (.ok (.dict [("streams", .list [.dict [("width", .int 640)]])])))
      = .ok (.dict [("width", .int 640)]) := rfl
example :
    download_with_yt_dlp true ["g", "l"]
      (fun _ => (Except.error "boom" : Except String Nat))
      = (.error (some "boom"), [some "g", some "l"]) := rfl
example :
    download_with_yt_dlp false ["g", "l"]
      (fun _ => (Except.error "boom" : Except String Nat))
      = (.error (some "boom"), [none]) := rfl

/-! ## Claim theorems -/

/-- C1: In Auto mode the engine yields a pass-through remux when the
probed SAR is absent or one of `"1:1"`, `"0:1"`, `"N/A"`, `""`, and a
geometry fix exactly when (outside that set) the SAR splits as `N:D`
with both parts parsing as Python ints, `D > 0` and `N ≠ D`; in
particular `"1:1"` gives pass-through and `"4:3"` a geometry fix.  The
pass-through command is a pure stream copy, and the geometry-fix
command re-encodes video with the fast preset and the
scale-and-square-SAR filter chain, copying audio. -/
theorem auto_mode_decision_engine :
    autoDecision none = .passThroughRemux
    ∧ (∀ s ∈ sarExcluded, autoDecision (some s) = .passThroughRemux)
    ∧ (∀ s : String,
        autoDecision (some s) = .geometryFix ↔
          s ∉ sarExcluded ∧ ∃ a b n d, splitOnChar ':' s.toList = [a, b] ∧
            pyIntL a = some n ∧ pyIntL b = some d ∧ 0 < d ∧ n ≠ d)
    ∧ autoDecision (some "1:1") = .passThroughRemux
    ∧ autoDecision (some "4:3") = .geometryFix
    ∧ (∀ f i o sarOpt, autoDecision sarOpt = .passThroughRemux →
        transcodeCmd f i o sarOpt
          = [f, "-y", "-i", i, "-c", "copy", "-movflags", "+faststart", o])
    ∧ (∀ f i o sarOpt, autoDecision sarOpt = .geometryFix →
        transcodeCmd f i o sarOpt
          = [f, "-y", "-i", i,
             "-vf", "scale=\x27trunc(iw*sar/2)*2:trunc(ih/2)*2\x27,setsar=1",
             "-c:v", "libx264", "-preset", "ultrafast", "-crf", "18",
             "-c:a", "copy", "-movflags", "+faststart", o]) := by
  refine ⟨by decide, ?_, autoDecision_geometryFix_iff, by decide, by decide, ?_, ?_⟩
  · intro s hs
    fin_cases hs <;> decide
  · intro f i o sarOpt hdec
    by_cases h : needs_sar_fix (sarOpt.getD "1:1")
    · simp [autoDecision, h] at hdec
    · simp [transcodeCmd, ffmpegCmd, h]
  · intro f i o sarOpt hdec
    by_cases h : needs_sar_fix (sarOpt.getD "1:1")
    · simp [transcodeCmd, ffmpegCmd, h]
    · simp [autoDecision, h] at hdec

/-- Witness for C1: instantiates the excluded-set clause at `"0:1"` and
the geometry-fix command clause at SAR `"4:3"`. -/
theorem auto_mode_decision_engine_witness :
    autoDecision (some "0:1") = PlanKind.passThroughRemux
    ∧ transcodeCmd "ffmpeg" "in.mp4" "out.mp4" (some "4:3")
        = ["ffmpeg", "-y", "-i", "in.mp4",
           "-vf", "scale=\x27trunc(iw*sar/2)*2:trunc(ih/2)*2\x27,setsar=1",
           "-c:v", "libx264", "-preset", "ultrafast", "-crf", "18",
           "-c:a", "copy", "-movflags", "+faststart", "out.mp4"] :=
  ⟨auto_mode_decision_engine.2.1 "0:1" (by decide),
   auto_mode_decision_engine.2.2.2.2.2.2 "ffmpeg" "in.mp4" "out.mp4"
     (some "4:3") (by decide)⟩

/-- C2: when every strategy attempt of a classified URL fails, the
loop raises exactly the last attempt's recorded error; earlier errors
are superseded. -/
theorem all_strategies_fail_raises_last {E A B : Type}
    (pre : List B) (lastC : B) (body : Option B → Except E A) (g : B → E)
    (hfail : ∀ c ∈ pre ++ [lastC], body (some c) = .error (g c)) :
    (download_with_yt_dlp true (pre ++ [lastC]) body).1
      = .error (some (g lastC)) := by
  unfold download_with_yt_dlp attemptsFor
  rw [if_pos rfl]
  exact attemptLoop_allFail body g lastC pre none hfail

/-- Witness for C2: three failing strategies; the surfaced error is the
third one's, not the first's. -/
theorem all_strategies_fail_raises_last_witness :
    (download_with_yt_dlp true (["graphql", "legacy"] ++ ["syndication"])
      (fun a => (Except.error ((a.getD "") ++ "-err") : Except String Nat))
      ).1 = .error (some "syndication-err") :=
  all_strategies_fail_raises_last ["graphql", "legacy"] "syndication"
    (fun a => Except.error ((a.getD "") ++ "-err"))
    (fun c => c ++ "-err")
    (by intro c hc; fin_cases hc <;> rfl)

/-- Concrete downloader oracle for C3: both strategies download
successfully (to distinct files). -/
def dlC3 : Option String → Except String Nat
  | some "graphql" => .ok 1
  | some "legacy" => .ok 2
  | _ => .error "unsupported"

/-- Concrete downstream (normalize/probe/transcode) oracle for C3: the
first download's file fails transcoding, the second's succeeds. -/
def procC3 : Nat → Except String String
  | 1 => .error "ffmpeg failed"
  | _ => .ok "artifact.mp4"

/-- Counterexample to C3: on a classified URL the first strategy's
download succeeds (`dlC3 (some "graphql") = .ok 1`), its downstream
transcode fails, and the loop nevertheless makes a second strategy
attempt — the trace records both attempts, refuting "no further
strategy attempts are ever made after a successful download". -/
theorem further_attempt_after_successful_download :
    dlC3 (some "graphql") = .ok 1
    ∧ (download_with_yt_dlp true ["graphql", "legacy"]
        (fun api => (dlC3 api).bind procC3)).2
      ≠ [some "graphql"]
    ∧ download_with_yt_dlp true ["graphql", "legacy"]
        (fun api => (dlC3 api).bind procC3)
      = (.ok "artifact.mp4", [some "graphql", some "legacy"]) :=
  ⟨rfl, by decide, rfl⟩

/-- C3 as amended: once an attempt's download *and* its downstream
normalization/probing/transcoding all succeed, the orchestrator returns
that artifact immediately and makes no further attempts; a downstream
failure after a successful download is treated like a failed attempt,
and the next strategy is tried. -/
theorem first_validated_attempt_returns_immediately {E D A B : Type}
    (dl : Option B → Except E D) (proc : D → Except E A)
    (pre post : List B) (a : B) (d : D) (v : A)
    (hpre : ∀ x ∈ pre, ∃ e, (dl (some x)).bind proc = .error e)
    (hdl : dl (some a) = .ok d) (hproc : proc d = .ok v) :
    download_with_yt_dlp true (pre ++ a :: post)
        (fun api => (dl api).bind proc)
      = (.ok v, pre.map some ++ [some a]) := by
  unfold download_with_yt_dlp attemptsFor
  rw [if_pos rfl]
  exact attemptLoop_firstSuccess _ pre a post v none hpre
    (by simp [hdl, hproc, Except.bind])

/-- Witness for C3's amended theorem: first strategy fails downstream,
second fully succeeds, third is never tried. -/
theorem first_validated_attempt_returns_immediately_witness :
    download_with_yt_dlp true (["graphql"] ++ "legacy" :: ["syndication"])
        (fun api => (dlC3 api).bind procC3)
      = (.ok "artifact.mp4", [some "graphql", some "legacy"]) :=
  first_validated_attempt_returns_immediately dlC3 procC3
    ["graphql"] ["syndication"] "legacy" 2 "artifact.mp4"
    (by intro x hx; fin_cases hx; exact ⟨"ffmpeg failed", rfl⟩)
    rfl rfl

/-- C4 (code bug): at the failing input — declared filename
`clip.webm`, with `clip.mp4` present on disk and `clip.webm` absent —
the code returns the declared path unchanged instead of the sibling
`.mp4` path, because line 116 requires the declared path to *exist*
(`path.exists()`) where the intended post-merge-rename scenario has it
absent.  The code also substitutes the sibling when *both* files exist,
where the claim returns the declared path unchanged. -/
theorem normalize_keeps_missing_declared_path :
    normalize_download_path (fun p => p = "clip.mp4".toList) "clip.webm".toList
      = "clip.webm".toList
    ∧ normalize_download_path
        (fun p => p = "clip.webm".toList || p = "clip.mp4".toList)
        "clip.webm".toList
      = "clip.mp4".toList := by decide

/-- Counterexample to C5: with the ffprobe binary absent the probe
raises `RuntimeError("ffprobe not found")` instead of returning the
empty properties structure, and a probe timeout propagates
`subprocess.TimeoutExpired`; both are probe outcomes on which an error
escapes upward. -/
theorem probe_failure_can_raise :
    get_video_info false (.done 0 (.ok (.dict []))) = .error .runtimeNotFound
    ∧ get_video_info true .timeout = .error .timeoutExpired :=
  ⟨rfl, rfl⟩

/-- C5 as amended: when the ffprobe binary exists, the run does not time
out, and the parsed stdout has one of the shapes real `ffprobe -of json`
output can take (or fails to decode), the probe never propagates an
error: it returns the empty structure on nonzero exit, on decode
failure, and on an absent or empty `streams` array.  But a missing
ffprobe binary and a probe timeout do raise. -/
theorem probe_absorbs_failures_when_tool_present
    (rc : Int) (out : Except Unit PyObj)
    (h : stdoutShapeOk out = true) :
    (∃ v, get_video_info true (.done rc out) = .ok v)
    ∧ (rc ≠ 0 → get_video_info true (.done rc out) = .ok (.dict []))
    ∧ (out = .error () → get_video_info true (.done rc out) = .ok (.dict [])) := by
  by_cases hrc : rc = 0
  · subst hrc
    refine ⟨?_, fun hc => absurd rfl hc, ?_⟩
    · match out with
      | .error _ => exact ⟨.dict [], rfl⟩
      | .ok (.dict kvs) =>
        simp only [get_video_info, Bool.not_true, if_neg (by decide : ¬(0 : Int) ≠ 0)]
        match hst : dictGet kvs "streams" with
        | none => exact ⟨.dict [], by simp [hst]⟩
        | some (.list []) => exact ⟨.dict [], by simp [hst]⟩
        | some (.list (x :: xs)) => exact ⟨x, by simp [hst]⟩
        | some (.str s) =>
          match hs : s.toList with
          | [] =>
            exact ⟨.dict [], by
              have hs' : s.data = [] := hs
              simp [hst, hs']⟩
          | c :: cs =>
            exact ⟨.str (String.mk [c]), by
              have hs' : s.data = c :: cs := hs
              simp [hst, hs']⟩
        | some (.dict kvs2) => simp [stdoutShapeOk, hst] at h
        | some (.int n) => simp [stdoutShapeOk, hst] at h
        | some .noneV => simp [stdoutShapeOk, hst] at h
      | .ok (.list xs) => simp [stdoutShapeOk] at h
      | .ok (.str s) => simp [stdoutShapeOk] at h
      | .ok (.int n) => simp [stdoutShapeOk] at h
      | .ok .noneV => simp [stdoutShapeOk] at h
    · intro hout
      subst hout
      rfl
  · refine ⟨⟨.dict [], ?_⟩, fun _ => ?_, fun _ => ?_⟩ <;>
      simp [get_video_info, hrc]

/-- Witness for C5's amended theorem: nonzero exit with undecodable
stdout yields the empty properties dict. -/
theorem probe_absorbs_failures_witness :
    get_video_info true (.done 1 (.error ())) = .ok (.dict []) :=
  (probe_absorbs_failures_when_tool_present 1 (.error ()) rfl).2.1 (by decide)

/-- Counterexample to C6: in Auto mode the probed SAR `"0:5"` does
*not* give a pass-through remux — `0:5` parses with denominator `5 > 0`
and numerator `0 ≠ 5`, so the code chooses the geometry-fix re-encode. -/
theorem sar_zero_numerator_not_pass_through :
    autoDecision (some "0:5") ≠ PlanKind.passThroughRemux := by decide

/-- C6 as amended: SAR `"0:5"` yields a geometry fix (it parses as
`N:D` with `D = 5 > 0` and `N = 0 ≠ 5`); the conservative no-fix
default applies to a malformed *zero* denominator such as `"5:0"`, to
the explicitly excluded `"0:1"`, and to unparsable SAR strings. -/
theorem sar_malformed_denominator_cases :
    autoDecision (some "0:5") = .geometryFix
    ∧ autoDecision (some "5:0") = .passThroughRemux
    ∧ autoDecision (some "0:1") = .passThroughRemux
    ∧ autoDecision (some "junk") = .passThroughRemux := by decide

/-- Counterexample to C7: with the strategy-order configuration present
but empty, the candidate list is a single fallback attempt, not the
fixed three-strategy default order. -/
theorem empty_order_config_not_three_defaults :
    apiCandidates (some "") none none
      ≠ ["graphql".toList, "legacy".toList, "syndication".toList]
    ∧ apiCandidates (some "") none none = ["syndication".toList] := by decide

/-- C7 as amended: strategy attempts are tried in the configured order
(the attempt trace is always an in-order front segment of the candidate
list); an *absent* order configuration defaults to
graphql, legacy, syndication; a *present but empty* (or
all-blank) configuration falls back to a single attempt taken from
`YTDLP_TWITTER_API`, else `TWITTER_API`, else `"syndication"`. -/
theorem strategy_order_and_defaults :
    (∀ a b, apiCandidates none a b
      = ["graphql".toList, "legacy".toList, "syndication".toList])
    ∧ apiCandidates (some "") none none = ["syndication".toList]
    ∧ apiCandidates (some " , ,") (some "legacy") none = ["legacy".toList]
    ∧ apiCandidates (some "") (some "") (some "graphql") = ["graphql".toList]
    ∧ (∀ (E A : Type) (body : Option (List Char) → Except E A)
        (orderEnv a b : Option String),
        ∃ k, (download_with_yt_dlp true (apiCandidates orderEnv a b) body).2
          = ((apiCandidates orderEnv a b).map some).take k) := by
  refine ⟨fun a b => rfl, by decide, by decide, by decide, ?_⟩
  intro E A body orderEnv a b
  exact attemptLoop_trace_take true body ((apiCandidates orderEnv a b).map some) none

/-- C8: a URL not classified as Twitter/X — including one whose parse
raises, which classification absorbs into `False` — gets exactly one
download attempt with no strategy label, and a failure of that single
attempt aborts immediately, surfacing that error with no further
attempts. -/
theorem unclassified_url_single_attempt {E A : Type}
    (parsed : Except Unit String) (cands : List (List Char))
    (body : Option (List Char) → Except E A) (e : E)
    (hTw : is_twitter_url parsed = false)
    (hb : body none = .error e) :
    attemptsFor (is_twitter_url parsed) cands = [none]
    ∧ download_with_yt_dlp (is_twitter_url parsed) cands body
        = (.error (some e), [none])
    ∧ is_twitter_url (.error ()) = false := by
  rw [hTw]
  exact ⟨rfl, by simp [download_with_yt_dlp, attemptsFor, attemptLoop, hb], rfl⟩

/-- Witness for C8: an unparsable URL with a failing single attempt. -/
theorem unclassified_url_single_attempt_witness :
    download_with_yt_dlp false
        ["graphql".toList, "legacy".toList, "syndication".toList]
        (fun _ => (Except.error "no video" : Except String Nat))
      = (.error (some "no video"), [none]) :=
  (unclassified_url_single_attempt (Except.error ())
    ["graphql".toList, "legacy".toList, "syndication".toList]
    (fun _ => (Except.error "no video" : Except String Nat))
    "no video" rfl rfl).2.1

/-- C9: the delivery gate is the pure comparison of the artifact size
with the transport's ceiling — 2000 MiB when the local Bot API server
is configured, 50 MiB on the hosted API.  A 60 MiB artifact fits only
under the local transport; a 40 MiB artifact fits under both. -/
theorem delivery_gate_limits :
    fitsGate (60 * 1024 * 1024) (some "http://telegram-api:8081") = true
    ∧ fitsGate (60 * 1024 * 1024) none = false
    ∧ fitsGate (40 * 1024 * 1024) (some "http://telegram-api:8081") = true
    ∧ fitsGate (40 * 1024 * 1024) none = true
    ∧ (∀ sz url, fitsGate sz url = decide (sz ≤ max_size url)) := by
  refine ⟨by decide, by decide, by decide, by decide, ?_⟩
  intro sz url
  rw [fitsGate, ← decide_not]
  exact decide_eq_decide.mpr Nat.not_lt

/-- C10: an unset, empty, or all-non-integer allow-list configuration
parses to the empty set (non-integer entries being silently skipped),
and an empty allow-list grants access to every user, identified or
not; a denial can only happen when at least one entry parsed as an
integer id. -/
theorem allowlist_empty_grants_all (env : Option String) (uid : Option Int) :
    (parse_allowlist env = [] ↔
      ∀ part ∈ splitOnChar ',' (pyStrip (env.getD "").toList),
        pyIntL (pyStrip part) = none)
    ∧ (parse_allowlist env = [] →
        accessGranted (parse_allowlist env) uid = true)
    ∧ (accessGranted (parse_allowlist env) uid = false →
        parse_allowlist env ≠ [])
    ∧ parse_allowlist none = []
    ∧ parse_allowlist (some "") = []
    ∧ parse_allowlist (some "abc, x.y, ") = []
    ∧ parse_allowlist (some "12, x, 34") = [12, 34]
    ∧ accessGranted [12, 34] (some 7) = false := by
  refine ⟨?_, ?_, ?_, by decide, by decide, by decide, by decide, by decide⟩
  · unfold parse_allowlist
    by_cases hraw : pyStrip (env.getD "").toList = []
    · rw [if_pos hraw, hraw]
      simp only [true_iff]
      intro part hp
      simp [splitOnChar] at hp
      subst hp
      rfl
    · rw [if_neg hraw]
      exact List.filterMap_eq_nil_iff
  · intro h
    rw [h]
    rfl
  · intro hdeny h
    rw [h] at hdeny
    simp [accessGranted] at hdeny

end TgTw
